import Mathlib

/-!
Verification development for the release-notes extraction and document
assembly program (src/app.py).  The Python source is shallowly embedded:
pure fragments become Lean functions, the browser interaction becomes an
explicit outcome oracle, and the incremental docx construction becomes
explicit state passing over a list of abstract blocks.
-/

/-! ## String primitives

Python string operations used by the source (strip, lower, substring
membership, startswith) are embedded as structurally recursive functions
over the character list of a string, so every definition evaluates inside
the kernel.  The pages handled by the program are ASCII, for which these
agree with the Python semantics. -/

/-- Boolean test that the first character list starts the second
(model of Python str.startswith at character level). -/
def listIsPre : List Char → List Char → Bool
  | [], _ => true
  | _ :: _, [] => false
  | a :: as, b :: bs => a == b && listIsPre as bs

/-- Boolean test that the first character list occurs contiguously inside
the second (model of the Python operator in on strings). -/
def listInfix (sub : List Char) : List Char → Bool
  | [] => listIsPre sub []
  | c :: rest => listIsPre sub (c :: rest) || listInfix sub rest

/-- Model of Python sub in s for strings. -/
def pyIn (sub s : String) : Bool := listInfix sub.data s.data

/-- Model of Python str.lower (ASCII). -/
def pyLower (s : String) : String := String.mk (s.data.map Char.toLower)

/-- Whitespace recognized by the trimming model. -/
def isWhite (c : Char) : Bool := c == ' ' || c == '\t' || c == '\n' || c == '\r'

/-- Model of Python str.strip: drop leading and trailing whitespace. -/
def pyStrip (s : String) : String :=
  String.mk (((s.data.dropWhile isWhite).reverse.dropWhile isWhite).reverse)

/-- Model of url.startswith(("http://", "https://")) from app.py line 272. -/
def startsWithHttp (url : String) : Bool :=
  listIsPre ("http://").data url.data || listIsPre ("https://").data url.data

/-! ## Link extraction data model (LinkExtractor, app.py lines 24-170) -/

/-- Raw anchor as collected by the JS crawler (JS_CRAWL_ANCHORS pushes
objects with fields href and text). -/
structure Anchor where
  href : String
  text : String
deriving Repr, DecidableEq

/-- Classified link dict appended at app.py lines 110-114. -/
structure ContentLink where
  text : String
  url : String
  original_href : String
deriving Repr, DecidableEq

/-- Navigation noise words from app.py line 107. -/
def noise_words : List String :=
  ["home", "login", "support", "contact", "privacy", "terms", "footer",
   "navigation", "refresh", "print"]

/-- Filtering loop of app.py lines 95-114: keep anchors with non-empty
stripped text and non-empty href, whose href contains the content marker
release-notes, and whose lower-cased text contains no noise word; emit a
link dict with url and original_href both set to the href. -/
def filter_links (raw : List Anchor) : List ContentLink :=
  raw.filterMap fun item =>
    let href := item.href
    let text := pyStrip item.text
    if text == "" || href == "" then none
    else if !(pyIn "release-notes" href) then none
    else if noise_words.any (fun w => pyIn w (pyLower text)) then none
    else some { text := text, url := href, original_href := href }

/-- Dedup loop of app.py lines 122-128: a set of seen urls (modelled as a
list) drives the decision; the first occurrence of each url is kept. -/
def dedupe_links (seen : List String) : List ContentLink → List ContentLink
  | [] => []
  | l :: ls =>
    if seen.contains l.url then dedupe_links seen ls
    else l :: dedupe_links (l.url :: seen) ls

/-- Full classification pipeline (filter then dedupe), app.py lines 95-128. -/
def classify (raw : List Anchor) : List ContentLink :=
  dedupe_links [] (filter_links raw)

/-- Page readiness predicate of app.py line 58: the lambda passed to
wait.until holds when the title is truthy (non-empty) and neither
placeholder string occurs in it (Python not in, substring containment). -/
def page_ready (title : String) : Bool :=
  title != "" && !(pyIn "Help And Training Community" title)
    && !(pyIn "Login" title)

/-! ## TOC serialization (JS_TOC_TREE, app.py lines 133-148) -/

/-- Output node shape of the JS serialize function: {text, url, children}. -/
structure TocNode where
  text : String
  url : Option String
  children : List TocNode
deriving Repr

/-- Relevant queried structure of a list item element: its innerText, its
direct child link (selector :scope > a[href], giving link text and href)
when present, and the list items of its immediate nested list
(selector :scope > ul > li). -/
inductive LiNode where
  | mk (innerText : String) (anchor : Option (String × String)) (children : List LiNode)

mutual
/-- Depth of a list item tree (number of nesting levels). -/
def liDepth : LiNode → Nat
  | .mk _ _ cs => 1 + liDepthList cs
/-- Depth helper over child lists. -/
def liDepthList : List LiNode → Nat
  | [] => 0
  | c :: cs => Nat.max (liDepth c) (liDepthList cs)
end

mutual
/-- Embedding of the JS serialize function: text and url come from the
direct child anchor when one exists, else the items own innerText with a
null url; children are the serialized items of the immediate nested list.
The JS trims with String.prototype.trim, modelled by pyStrip. -/
def serialize : LiNode → TocNode
  | .mk it anchor cs =>
    match anchor with
    | some (atext, ahref) => ⟨pyStrip atext, some ahref, serializeList cs⟩
    | none => ⟨pyStrip it, none, serializeList cs⟩
/-- Embedding of the forEach push loop over child list items. -/
def serializeList : List LiNode → List TocNode
  | [] => []
  | c :: cs => serialize c :: serializeList cs
end

mutual
/-- Depth of a serialized TOC node. -/
def tocDepth : TocNode → Nat
  | ⟨_, _, cs⟩ => 1 + tocDepthList cs
/-- Depth helper over serialized child lists. -/
def tocDepthList : List TocNode → Nat
  | [] => 0
  | c :: cs => Nat.max (tocDepth c) (tocDepthList cs)
end

/-- Chain of singly nested list items of depth n + 1, used to probe the
behavior of serialize on deep nesting. -/
def deepLi : Nat → LiNode
  | 0 => .mk "x" none []
  | n + 1 => .mk "x" none [deepLi n]

/-! ## Page extraction orchestration (extract_links_from_url) -/

/-- Abstract outcome of the browser session for one url: driver
initialization failure, readiness timeout (TimeoutException at line 159),
some other exception (line 163), or a loaded page exposing a title, the
anchors collected by JS_CRAWL_ANCHORS, and the TOC list items visited by
JS_TOC_TREE. -/
inductive PageOutcome where
  | driverFail
  | timeout
  | success (title : String) (anchors : List Anchor) (toc : List LiNode)
  | otherError

/-- Return dict of extract_links_from_url (keys links, toc_tree,
page_title). -/
structure ExtractResult where
  links : List ContentLink
  toc_tree : List TocNode
  page_title : String

/-- Embedding of LinkExtractor.extract_links_from_url, app.py lines
45-170, with the browser abstracted into a PageOutcome: each failure kind
maps to the placeholder result the corresponding handler returns, and a
loaded page is classified and its TOC serialized. -/
def extract_links_from_url (outcome : PageOutcome) (url : String) : ExtractResult :=
  match outcome with
  | .driverFail => ⟨[], [], "Error: WebDriver initialization failed"⟩
  | .timeout => ⟨[], [], "Error: Timeout for " ++ url⟩
  | .otherError => ⟨[], [], "Error: " ++ url⟩
  | .success title anchors toc => ⟨classify anchors, serializeList toc, title⟩

/-- Per-source record appended to session state in main, app.py lines
421-426. -/
structure UrlData where
  source_url : String
  page_title : String
  links : List ContentLink
  toc_tree : List TocNode

/-- Batch loop of main, app.py lines 416-428: each url is processed
independently and its result appended in input order. -/
def process_urls (oracle : String → PageOutcome) (urls : List String) : List UrlData :=
  urls.map fun url =>
    let r := extract_links_from_url (oracle url) url
    { source_url := url, page_title := r.page_title,
      links := r.links, toc_tree := r.toc_tree }

/-! ## Document assembly (DocxManager, app.py lines 172-342)

Paragraph content is a list of abstract elements; the docx relationship
registry is modelled as the log of relate_to calls made on the document
part.  The environment records whether the tier-1 markup splice and the
tier-2 element build raise (the forced-failure scenarios of the spec);
a failing tier is modelled as raising at its XML construction step, after
its relate_to call and, for tier 2, after its initial empty add_run call.
Run font size is not modelled: the tier-3 size tweak at line 340 keeps a
default-size run unchanged (font.size is None, so None is assigned). -/

/-- Text run with the character formatting the source sets. -/
structure Run where
  text : String
  bold : Bool := false
  italic : Bool := false
  colored : Bool := false
  underline : Bool := false
deriving Repr, DecidableEq

/-- Paragraph content element: a plain run or an embedded hyperlink
element wrapping a colored underlined run (the relationship id is carried
by the registration log, not repeated here). -/
inductive RElem where
  | run (r : Run)
  | link (url : String) (text : String)
deriving Repr, DecidableEq

/-- Document part state: the log of relate_to calls (external hyperlink
relationship registrations). -/
structure DocState where
  rels : List String
deriving Repr, DecidableEq

/-- Failure injection for the first two hyperlink embedding tiers. -/
structure HEnv where
  t1Fails : Bool
  t2Fails : Bool
deriving Repr, DecidableEq

/-- Document block: a heading with level, a paragraph with a left indent
in quarter inches (Inches(0.25 * level)) and centering flag, or a page
break. -/
inductive Block where
  | heading (level : Nat) (text : String) (centered : Bool)
  | para (indent : Nat) (centered : Bool) (content : List RElem)
  | pageBreak
deriving Repr, DecidableEq

/-- Embedding of DocxManager._add_hyperlink, app.py lines 268-342.
Guard: an empty url or one without an http or https scheme renders the
visible text as a plain run and returns at once.  Tier 1 registers the
relationship and splices a hyperlink markup fragment; on failure tier 2
adds an empty run, registers again and builds the element manually; on
failure tier 3 adds a colored underlined run with the visible text, a
line-break run, and a colored underlined run with the literal url. -/
def add_hyperlink (env : HEnv) (st : DocState) (p : List RElem) (url text : String) :
    DocState × List RElem :=
  if url == "" || !(startsWithHttp url) then
    (st, p ++ [.run { text := text }])
  else
    let st1 : DocState := ⟨st.rels ++ [url]⟩
    if !env.t1Fails then
      (st1, p ++ [.link url text])
    else
      let st2 : DocState := ⟨st1.rels ++ [url]⟩
      if !env.t2Fails then
        (st2, p ++ [.run { text := "" }, .link url text])
      else
        (st2, p ++ [.run { text := "" },
                    .run { text := text, colored := true, underline := true },
                    .run { text := "\n    " },
                    .run { text := url, colored := true, underline := true }])

mutual
/-- Embedding of the nested write_node function, app.py lines 232-240: a
paragraph indented by the nesting level, holding a hyperlink when the node
has a url and a bold plain run otherwise, followed by the blocks of the
children one level deeper. -/
def write_node (env : HEnv) (st : DocState) (node : TocNode) (level : Nat) :
    DocState × List Block :=
  match node with
  | ⟨text, urlOpt, children⟩ =>
    let step :=
      match urlOpt with
      | some u => add_hyperlink env st [] u text
      | none => (st, [RElem.run { text := text, bold := true }])
    let rest := write_nodes env step.1 children (level + 1)
    (rest.1, Block.para level false step.2 :: rest.2)
/-- Loop over child nodes (the for child / for top loops at lines 239-242). -/
def write_nodes (env : HEnv) (st : DocState) (nodes : List TocNode) (level : Nat) :
    DocState × List Block :=
  match nodes with
  | [] => (st, [])
  | n :: ns =>
    let first := write_node env st n level
    let rest := write_nodes env first.1 ns level
    (rest.1, first.2 ++ rest.2)
end

/-- Embedding of the numbered fallback list, app.py lines 243-249: for
each link a paragraph with a bold index run and the hyperlink, followed by
an empty spacer paragraph. -/
def flat_links (env : HEnv) (st : DocState) : List ContentLink → Nat → DocState × List Block
  | [], _ => (st, [])
  | link :: restLinks, j =>
    let step := add_hyperlink env st
      [RElem.run { text := toString j ++ ". ", bold := true }] link.url link.text
    let rest := flat_links env step.1 restLinks (j + 1)
    (rest.1, Block.para 0 false step.2 :: Block.para 0 false [] :: rest.2)

/-- Body content of one source section, app.py lines 230-249: the
hierarchical TOC when the (truthy) tree is non-empty, else the numbered
flat list when links is non-empty, else nothing. -/
def section_body (env : HEnv) (st : DocState) (d : UrlData) : DocState × List Block :=
  match d.toc_tree with
  | _ :: _ => write_nodes env st d.toc_tree 0
  | [] =>
    match d.links with
    | _ :: _ => flat_links env st d.links 1
    | [] => (st, [])

/-- One source section of the loop body, app.py lines 209-255: heading
with 1-based index and page title, source line with hyperlink, link count
line, spacer, body, and a separator pair after every section but the last
(i is the 1-based index, n the number of results). -/
def section_blocks (env : HEnv) (st : DocState) (i n : Nat) (d : UrlData) :
    DocState × List Block :=
  let src := add_hyperlink env st
    [RElem.run { text := "Source: ", bold := true }] d.source_url d.source_url
  let body := section_body env src.1 d
  let sep : List Block :=
    if i < n then
      [Block.para 0 true [RElem.run { text := String.mk (List.replicate 80 '=') }],
       Block.para 0 false []]
    else []
  (body.1,
   Block.heading 1 (toString i ++ ". " ++ d.page_title) false
     :: Block.para 0 false src.2
     :: Block.para 0 false [RElem.run { text := "Links Found: ", bold := true },
                            RElem.run { text := toString d.links.length }]
     :: Block.para 0 false []
     :: (body.2 ++ sep))

/-- Loop over all extraction results (enumerate(extracted_data, 1)). -/
def all_sections (env : HEnv) (st : DocState) (datas : List UrlData) (i n : Nat) :
    DocState × List Block :=
  match datas with
  | [] => (st, [])
  | d :: rest =>
    let first := section_blocks env st i n d
    let restBlocks := all_sections env first.1 rest (i + 1) n
    (restBlocks.1, first.2 ++ restBlocks.2)

/-- Embedding of DocxManager.create_document, app.py lines 176-262: title
heading, generation line (the timestamp is passed in as now), spacer,
summary heading, summary paragraph with total source and total link
counts, page break, then the per-source sections.  A fresh document
carries an empty relationship log. -/
def create_document (env : HEnv) (now : String) (title : String)
    (extracted_data : List UrlData) : DocState × List Block :=
  let header : List Block :=
    [Block.heading 0 title true,
     Block.para 0 true [RElem.run { text := "Generated on " ++ now, italic := true }],
     Block.para 0 false [],
     Block.heading 1 "Summary" false,
     Block.para 0 false
       [RElem.run { text := "Total Sources Processed: ", bold := true },
        RElem.run { text := toString extracted_data.length ++ "\n" },
        RElem.run { text := "Total Links Extracted: ", bold := true },
        RElem.run { text := toString ((extracted_data.map (fun d => d.links.length)).sum) }],
     Block.pageBreak]
  let secs := all_sections env ⟨[]⟩ extracted_data 1 extracted_data.length
  (secs.1, header ++ secs.2)

/-! ## Specification-side definitions (for refinement comparisons) -/

/-- Written from the spec wording for the dedupe step: keep the first
occurrence of each distinct href and drop every later occurrence. -/
def keepFirstSpec : List ContentLink → List ContentLink
  | [] => []
  | l :: ls => l :: keepFirstSpec (ls.filter (fun x => x.url != l.url))
termination_by ls => ls.length
decreasing_by
  simpa using Nat.lt_succ_of_le (List.length_filter_le _ _)

/-- Written from the spec wording for order of first-seen urls. -/
def firstSeenUrls : List String → List String
  | [] => []
  | u :: us => u :: firstSeenUrls (us.filter (fun v => v != u))
termination_by us => us.length
decreasing_by
  simpa using Nat.lt_succ_of_le (List.length_filter_le _ _)

/-- Written from the claim wording for page readiness: title non-empty
and not equal to either known placeholder title. -/
def page_ready_claimed (title : String) : Bool :=
  title != "" && title != "Help And Training Community" && title != "Login"

/-! ## Helper lemmas -/

/-- Soundness of the startswith model. -/
theorem listIsPre_iff (a b : List Char) : listIsPre a b = true ↔ ∃ t, b = a ++ t := by
  induction a generalizing b with
  | nil => simp [listIsPre]
  | cons x xs ih =>
    cases b with
    | nil => simp [listIsPre]
    | cons y ys =>
      simp only [listIsPre, Bool.and_eq_true, beq_iff_eq, ih, List.cons_append,
        List.cons.injEq]
      constructor
      · rintro ⟨rfl, t, rfl⟩
        exact ⟨t, rfl, rfl⟩
      · rintro ⟨t, rfl, rfl⟩
        exact ⟨rfl, t, rfl⟩

/-- Soundness of the substring model. -/
theorem listInfix_iff (sub s : List Char) :
    listInfix sub s = true ↔ ∃ pre post, s = pre ++ sub ++ post := by
  induction s with
  | nil =>
    simp only [listInfix, listIsPre_iff]
    constructor
    · rintro ⟨t, ht⟩
      rcases List.append_eq_nil.mp ht.symm with ⟨rfl, rfl⟩
      exact ⟨[], [], rfl⟩
    · rintro ⟨pre, post, h⟩
      rcases List.append_eq_nil.mp h.symm with ⟨h1, rfl⟩
      rcases List.append_eq_nil.mp h1 with ⟨rfl, rfl⟩
      exact ⟨[], rfl⟩
  | cons c rest ih =>
    simp only [listInfix, Bool.or_eq_true, listIsPre_iff, ih]
    constructor
    · rintro (⟨t, ht⟩ | ⟨pre, post, h⟩)
      · exact ⟨[], t, by simpa using ht⟩
      · exact ⟨c :: pre, post, by simp [h]⟩
    · rintro ⟨pre, post, h⟩
      cases pre with
      | nil => exact Or.inl ⟨post, by simpa using h⟩
      | cons p ps =>
        simp only [List.cons_append, List.cons.injEq] at h
        exact Or.inr ⟨ps, post, h.2⟩

/-- Boolean negation form of the substring soundness lemma. -/
theorem listInfix_eq_false_iff (sub s : List Char) :
    listInfix sub s = false ↔ ¬ ∃ pre post, s = pre ++ sub ++ post := by
  rw [← listInfix_iff]
  cases h : listInfix sub s <;> simp

/-! ## Claim C8: page readiness predicate -/

/-- Claim C8 counterexample: the claim states the readiness predicate
holds for any non-empty title that is not equal to a placeholder title,
even when it properly contains one; but for the title Community Login
Portal, which is non-empty and equal to neither placeholder, the code
predicate (substring containment via the Python operator not in) is
false while the claimed equality-based predicate is true. -/
theorem page_ready_counterexample :
    page_ready "Community Login Portal" = false
    ∧ page_ready_claimed "Community Login Portal" = true
    ∧ ¬ ("Community Login Portal" : String) = ""
    ∧ ¬ ("Community Login Portal" : String) = "Help And Training Community"
    ∧ ¬ ("Community Login Portal" : String) = "Login" := by
  refine ⟨by decide, by decide, by decide, by decide, by decide⟩

/-- Claim C8 (amended): the readiness predicate holds exactly when the
title is non-empty and neither placeholder string (the generic portal
landing title and the login-page title) occurs in it as a contiguous
substring; titles merely containing a placeholder are treated as not
ready. -/
theorem page_ready_iff_no_placeholder_substring (t : String) :
    page_ready t = true ↔
      t ≠ ""
      ∧ (¬ ∃ pre post, t.data = pre ++ ("Help And Training Community").data ++ post)
      ∧ (¬ ∃ pre post, t.data = pre ++ ("Login").data ++ post) := by
  have e1 : ∀ sub : String, (pyIn sub t = false) ↔
      ¬ ∃ pre post, t.data = pre ++ sub.data ++ post := by
    intro sub
    rw [pyIn, listInfix_eq_false_iff]
  simp only [page_ready, Bool.and_eq_true, bne_iff_ne, ne_eq, Bool.not_eq_true']
  rw [e1, e1, and_assoc]

/-! ## Claims C1 and C4: hyperlink embedding fallback chain -/

/-- Claim C1: for a url with the https scheme and any visible text, when
the first two embedding tiers are forced to fail, the third tier runs and
the paragraph ends with the tier-3 degradation (styled visible-text run,
line-break run, styled literal-url run); in particular both the visible
text and the literal url occur in the paragraph as readable text runs.
The embedding is a total function, so the routine never raises. -/
theorem hyperlink_fallback_tier3 (st : DocState) (p : List RElem) (url text : String)
    (h : listIsPre ("https://").data url.data = true) :
    (add_hyperlink ⟨true, true⟩ st p url text).2 =
      p ++ [.run { text := "" },
            .run { text := text, colored := true, underline := true },
            .run { text := "\n    " },
            .run { text := url, colored := true, underline := true }]
    ∧ RElem.run { text := text, colored := true, underline := true }
        ∈ (add_hyperlink ⟨true, true⟩ st p url text).2
    ∧ RElem.run { text := url, colored := true, underline := true }
        ∈ (add_hyperlink ⟨true, true⟩ st p url text).2 := by
  have hne : url ≠ "" := by
    intro e
    exact absurd (e ▸ h) (by decide)
  have hsw : startsWithHttp url = true := by
    simp [startsWithHttp, h]
  refine ⟨?_, ?_, ?_⟩ <;> simp [add_hyperlink, hsw, hne]

/-- Claim C1 witness at a concrete https url and visible text. -/
theorem hyperlink_fallback_tier3_witness :
    listIsPre ("https://").data ("https://example.com/rn").data = true
    ∧ ((add_hyperlink ⟨true, true⟩ ⟨[]⟩ [] "https://example.com/rn" "Example").2 =
        [.run { text := "" },
         .run { text := "Example", colored := true, underline := true },
         .run { text := "\n    " },
         .run { text := "https://example.com/rn", colored := true, underline := true }]
      ∧ RElem.run { text := "Example", colored := true, underline := true }
          ∈ (add_hyperlink ⟨true, true⟩ ⟨[]⟩ [] "https://example.com/rn" "Example").2
      ∧ RElem.run { text := "https://example.com/rn", colored := true, underline := true }
          ∈ (add_hyperlink ⟨true, true⟩ ⟨[]⟩ [] "https://example.com/rn" "Example").2) :=
  ⟨by decide,
   by simpa using hyperlink_fallback_tier3 ⟨[]⟩ [] "https://example.com/rn" "Example" (by decide)⟩

/-- Claim C4: an empty url, or one that does not start with the http or
https scheme, is rendered as a single plain run holding only the visible
text, and the relationship log is unchanged, so the registration step is
never invoked for such urls. -/
theorem non_http_renders_plain_text (env : HEnv) (st : DocState) (p : List RElem)
    (url text : String) (h : url = "" ∨ startsWithHttp url = false) :
    add_hyperlink env st p url text = (st, p ++ [RElem.run { text := text }]) := by
  rcases h with h | h
  · subst h
    simp [add_hyperlink]
  · simp [add_hyperlink, h]

/-- Claim C4 witness at a concrete non-http url. -/
theorem non_http_renders_plain_text_witness :
    (("ftp://files.example.com" : String) = "" ∨ startsWithHttp "ftp://files.example.com" = false)
    ∧ add_hyperlink ⟨false, false⟩ ⟨[]⟩ [] "ftp://files.example.com" "Files" =
        (⟨[]⟩, [RElem.run { text := "Files" }]) :=
  ⟨Or.inr (by decide),
   non_http_renders_plain_text ⟨false, false⟩ ⟨[]⟩ [] "ftp://files.example.com" "Files"
     (Or.inr (by decide))⟩

/-! ## Claim C5: timeout handling and batch independence -/

/-- Claim C5: when the readiness wait for a url times out, the extraction
returns a result whose title is the placeholder Error: Timeout for the
url and whose link and TOC sequences are empty (the handler returns data,
it does not raise), and the batch loop processes every other url exactly
as it would have, appending results in input order. -/
theorem timeout_placeholder_result (oracle : String → PageOutcome) (url : String)
    (h : oracle url = PageOutcome.timeout) :
    (extract_links_from_url (oracle url) url).page_title = "Error: Timeout for " ++ url
    ∧ (extract_links_from_url (oracle url) url).links = []
    ∧ (extract_links_from_url (oracle url) url).toc_tree = []
    ∧ ∀ pre post : List String,
        process_urls oracle (pre ++ url :: post) =
          process_urls oracle pre
            ++ { source_url := url, page_title := "Error: Timeout for " ++ url,
                 links := [], toc_tree := [] }
            :: process_urls oracle post := by
  rw [h]
  refine ⟨rfl, rfl, rfl, ?_⟩
  intro pre post
  simp [process_urls, h, extract_links_from_url]

/-- Claim C5 witness with a concrete oracle that times out on one url. -/
theorem timeout_placeholder_result_witness :
    ((fun u => if u = "https://b" then PageOutcome.timeout
               else PageOutcome.success "T" [] []) "https://b" = PageOutcome.timeout)
    ∧ process_urls
        (fun u => if u = "https://b" then PageOutcome.timeout
                  else PageOutcome.success "T" [] [])
        (["https://a"] ++ "https://b" :: ["https://c"]) =
      process_urls
        (fun u => if u = "https://b" then PageOutcome.timeout
                  else PageOutcome.success "T" [] [])
        ["https://a"]
        ++ { source_url := "https://b", page_title := "Error: Timeout for " ++ "https://b",
             links := [], toc_tree := [] }
        :: process_urls
             (fun u => if u = "https://b" then PageOutcome.timeout
                       else PageOutcome.success "T" [] [])
             ["https://c"] :=
  ⟨by simp,
   (timeout_placeholder_result
      (fun u => if u = "https://b" then PageOutcome.timeout
                else PageOutcome.success "T" [] [])
      "https://b" (by simp)).2.2.2 ["https://a"] ["https://c"]⟩

/-! ## Claim C6: summary counts -/

/-- Claim C6: the assembled document always begins with the fixed header,
whose summary paragraph reports the total source count as the length of
the result list and the total link count as the sum over all results of
the length of the flat link list — computed from links alone, whatever
the TOC trees are (the result list, including any non-empty TOC trees,
is universally quantified). -/
theorem summary_counts (env : HEnv) (now title : String) (datas : List UrlData) :
    ∃ rest, (create_document env now title datas).2 =
      Block.heading 0 title true
        :: Block.para 0 true [RElem.run { text := "Generated on " ++ now, italic := true }]
        :: Block.para 0 false []
        :: Block.heading 1 "Summary" false
        :: Block.para 0 false
             [RElem.run { text := "Total Sources Processed: ", bold := true },
              RElem.run { text := toString datas.length ++ "\n" },
              RElem.run { text := "Total Links Extracted: ", bold := true },
              RElem.run { text := toString ((datas.map (fun d => d.links.length)).sum) }]
        :: Block.pageBreak :: rest :=
  ⟨(all_sections env ⟨[]⟩ datas 1 datas.length).2, rfl⟩

/-! ## Dedupe lemmas -/

/-- The dedupe loop output is a subsequence of its input. -/
theorem dedupe_links_sublist (seen : List String) (ls : List ContentLink) :
    List.Sublist (dedupe_links seen ls) ls := by
  induction ls generalizing seen with
  | nil => simp [dedupe_links]
  | cons l ls ih =>
    simp only [dedupe_links]
    split
    · exact List.Sublist.cons _ (ih seen)
    · exact List.Sublist.cons₂ _ (ih _)

/-- Every link surviving the dedupe loop has a url outside the seen set. -/
theorem dedupe_links_mem_not_seen (seen : List String) (ls : List ContentLink) :
    ∀ l ∈ dedupe_links seen ls, l.url ∉ seen := by
  induction ls generalizing seen with
  | nil => simp [dedupe_links]
  | cons x ls ih =>
    intro l hl
    by_cases hc : x.url ∈ seen
    · rw [show dedupe_links seen (x :: ls) = dedupe_links seen ls from by
        simp [dedupe_links, hc]] at hl
      exact ih seen l hl
    · rw [show dedupe_links seen (x :: ls) = x :: dedupe_links (x.url :: seen) ls from by
        simp [dedupe_links, hc]] at hl
      rcases List.mem_cons.mp hl with rfl | hl
      · exact hc
      · have h2 := ih (x.url :: seen) l hl
        intro hmem
        exact h2 (List.mem_cons_of_mem _ hmem)

/-- The urls surviving the dedupe loop are pairwise distinct. -/
theorem dedupe_links_urls_nodup (seen : List String) (ls : List ContentLink) :
    ((dedupe_links seen ls).map ContentLink.url).Nodup := by
  induction ls generalizing seen with
  | nil => simp [dedupe_links]
  | cons x ls ih =>
    by_cases hc : x.url ∈ seen
    · rw [show dedupe_links seen (x :: ls) = dedupe_links seen ls from by
        simp [dedupe_links, hc]]
      exact ih seen
    · rw [show dedupe_links seen (x :: ls) = x :: dedupe_links (x.url :: seen) ls from by
        simp [dedupe_links, hc]]
      rw [List.map_cons, List.nodup_cons]
      refine ⟨?_, ih (x.url :: seen)⟩
      intro hmem
      rcases List.mem_map.mp hmem with ⟨l, hl, hurl⟩
      have h2 := dedupe_links_mem_not_seen (x.url :: seen) ls l hl
      exact h2 (hurl ▸ List.mem_cons_self _ _)

/-- The dedupe loop computes exactly the keep-the-first-occurrence
subsequence described by the spec, relative to an initial seen set. -/
theorem dedupe_links_eq_keepFirst (seen : List String) (ls : List ContentLink) :
    dedupe_links seen ls = keepFirstSpec (ls.filter (fun x => !(seen.contains x.url))) := by
  induction ls generalizing seen with
  | nil => simp [dedupe_links, keepFirstSpec]
  | cons l ls ih =>
    by_cases hc : l.url ∈ seen
    · rw [show dedupe_links seen (l :: ls) = dedupe_links seen ls from by
        simp [dedupe_links, hc]]
      rw [ih seen]
      congr 1
      simp [List.filter_cons, hc]
    · rw [show dedupe_links seen (l :: ls) = l :: dedupe_links (l.url :: seen) ls from by
        simp [dedupe_links, hc]]
      rw [ih (l.url :: seen)]
      rw [show (l :: ls).filter (fun x => !(seen.contains x.url))
            = l :: ls.filter (fun x => !(seen.contains x.url)) from by
        simp [List.filter_cons, hc]]
      rw [keepFirstSpec]
      congr 1
      rw [List.filter_filter]
      congr 1
      apply List.filter_congr
      intro x _
      by_cases hx : x.url = l.url
      · simp [hx]
      · simp [hx]

/-- Mapping to urls commutes with filtering on a url condition. -/
theorem map_url_filter_ne (l : ContentLink) (ls : List ContentLink) :
    (ls.filter (fun x => x.url != l.url)).map ContentLink.url
      = (ls.map ContentLink.url).filter (fun v => v != l.url) := by
  induction ls with
  | nil => simp
  | cons x ls ih =>
    by_cases h : x.url = l.url <;> simp [List.filter_cons, h, ih]

/-- The urls of the keep-first subsequence are the first-seen urls of the
input, in order of first appearance. -/
theorem keepFirst_map_url (ls : List ContentLink) :
    (keepFirstSpec ls).map ContentLink.url = firstSeenUrls (ls.map ContentLink.url) := by
  cases ls with
  | nil => simp [keepFirstSpec, firstSeenUrls]
  | cons l ls =>
    rw [keepFirstSpec, firstSeenUrls.eq_def]
    simp only [List.map_cons]
    rw [keepFirst_map_url (ls.filter (fun x => x.url != l.url)), map_url_filter_ne]
termination_by ls.length
decreasing_by
  simpa using Nat.lt_succ_of_le (List.length_filter_le _ _)

/-! ## Claim C2: dedupe invariant, distinctness, order preservation -/

/-- Claim C2: the deduplication step of the classifier keeps exactly the
first occurrence of each distinct href among the filtered links (equality
with the keep-first specification), the output is a subsequence of the
filtered links (so relative order is preserved), the output urls are
pairwise distinct, and the output urls are the first-seen urls of the
filtered input in order of first appearance. -/
theorem classify_dedupe_correct (raw : List Anchor) :
    classify raw = keepFirstSpec (filter_links raw)
    ∧ List.Sublist (classify raw) (filter_links raw)
    ∧ ((classify raw).map ContentLink.url).Nodup
    ∧ (classify raw).map ContentLink.url
        = firstSeenUrls ((filter_links raw).map ContentLink.url) := by
  have h1 : classify raw = keepFirstSpec (filter_links raw) := by
    rw [classify, dedupe_links_eq_keepFirst]
    congr 1
    simp
  refine ⟨h1, dedupe_links_sublist [] _, dedupe_links_urls_nodup [] _, ?_⟩
  rw [h1, keepFirst_map_url]

/-! ## Claim C7: end-to-end scenario A -/

/-- Claim C7: on the concrete anchor input of scenario A, classification
filters out the login anchor (no content marker in its href and a noise
word in its text), keeps the first release-notes anchor, and dedupes away
its later duplicate, producing exactly one link. -/
theorem classify_scenario_a :
    classify [⟨"https://x/release-notes/a", "Feature A"⟩,
              ⟨"https://x/login", "Login"⟩,
              ⟨"https://x/release-notes/a", "Feature A dup"⟩]
      = [{ text := "Feature A", url := "https://x/release-notes/a",
           original_href := "https://x/release-notes/a" }] := by decide

/-! ## Claim C10: original_href equals url -/

/-- Every link produced by the filtering loop carries its href in both
the url and the original_href field. -/
theorem filter_links_href_fields (raw : List Anchor) :
    ∀ l ∈ filter_links raw, l.original_href = l.url := by
  intro l hl
  rw [filter_links, List.mem_filterMap] at hl
  obtain ⟨a, _, ha⟩ := hl
  simp only at ha
  split at ha
  · exact absurd ha (by simp)
  · split at ha
    · exact absurd ha (by simp)
    · split at ha
      · exact absurd ha (by simp)
      · rw [Option.some_inj] at ha
        rw [← ha]

/-- Claim C10: every link in the classified output has original_href
equal to url; no normalization is applied between the raw href and the
emitted link, so the two fields agree in every produced ContentLink. -/
theorem classify_original_href_eq_url (raw : List Anchor) (l : ContentLink)
    (h : l ∈ classify raw) : l.original_href = l.url := by
  have hsub : l ∈ filter_links raw :=
    (dedupe_links_sublist [] (filter_links raw)).subset h
  exact filter_links_href_fields raw l hsub

/-- Claim C10 witness at a concrete anchor list and produced link. -/
theorem classify_original_href_eq_url_witness :
    ({ text := "Feature A", url := "https://x/release-notes/a",
       original_href := "https://x/release-notes/a" } : ContentLink)
        ∈ classify [⟨"https://x/release-notes/a", "Feature A"⟩]
    ∧ ({ text := "Feature A", url := "https://x/release-notes/a",
         original_href := "https://x/release-notes/a" } : ContentLink).original_href
      = ({ text := "Feature A", url := "https://x/release-notes/a",
           original_href := "https://x/release-notes/a" } : ContentLink).url :=
  ⟨by decide,
   classify_original_href_eq_url [⟨"https://x/release-notes/a", "Feature A"⟩] _ (by decide)⟩

/-! ## Claim C9: TOC serialization depth -/

mutual
/-- Serialization preserves the nesting depth of a list item tree. -/
theorem tocDepth_serialize : ∀ n : LiNode, tocDepth (serialize n) = liDepth n
  | .mk it anchor cs => by
    cases anchor with
    | some a =>
      cases a with
      | mk atext ahref =>
        simp [serialize, tocDepth, liDepth, tocDepthList_serializeList cs]
    | none => simp [serialize, tocDepth, liDepth, tocDepthList_serializeList cs]
/-- Serialization preserves depth over lists of list items. -/
theorem tocDepthList_serializeList :
    ∀ l : List LiNode, tocDepthList (serializeList l) = liDepthList l
  | [] => by simp [serializeList, tocDepthList, liDepthList]
  | c :: cs => by
    simp [serializeList, tocDepthList, liDepthList, tocDepth_serialize c,
      tocDepthList_serializeList cs]
end

/-- A chain of n + 1 nested list items has depth n + 1. -/
theorem liDepth_deepLi (n : Nat) : liDepth (deepLi n) = n + 1 := by
  induction n with
  | zero => rfl
  | succ n ih =>
    simp [deepLi, liDepth, liDepthList, ih]
    omega

/-- Claim C9 counterexample: the serialization of JS_TOC_TREE imposes no
recursion ceiling: there is no bound N such that every input tree
serializes to a tree of depth at most N, because the chain of N nested
list items serializes, untruncated, to depth N + 1. -/
theorem toc_no_recursion_ceiling :
    ¬ ∃ N : Nat, ∀ li : LiNode, tocDepth (serialize li) ≤ N := by
  rintro ⟨N, h⟩
  have h1 := h (deepLi N)
  rw [tocDepth_serialize, liDepth_deepLi] at h1
  omega

/-- Claim C9 (amended): serialization terminates on every finite list
item tree — it is a total structural recursion over the tree, bounded by
the DOM structure — and it imposes no defensive recursion ceiling: the
serialized tree has exactly the depth of the input tree, so excessive
nesting is serialized in full rather than truncated. -/
theorem serialize_preserves_depth (li : LiNode) : tocDepth (serialize li) = liDepth li :=
  tocDepth_serialize li

/-! ## Claim C3: strict body preference rule per section -/

/-- Claim C3: every emitted source section consists of the index-title
heading, the source hyperlink line, the link count line and a spacer,
followed by the body and the separator; the body obeys the strict
preference rule — a non-empty TOC tree is rendered recursively starting
at indent level 0 with the flat link list ignored (any replacement of the
link list yields the same body), otherwise a non-empty link list is
rendered as a numbered hyperlink list starting at 1, otherwise nothing is
rendered; and each TOC node is rendered as a paragraph indented by its
nesting level, as a hyperlink when it has a url and as a bold plain run
otherwise, with its children rendered one level deeper. -/
theorem section_body_preference (env : HEnv) (st : DocState) (i n : Nat) (d : UrlData) :
    ((section_blocks env st i n d).2 =
       Block.heading 1 (toString i ++ ". " ++ d.page_title) false
         :: Block.para 0 false
              (add_hyperlink env st [RElem.run { text := "Source: ", bold := true }]
                 d.source_url d.source_url).2
         :: Block.para 0 false [RElem.run { text := "Links Found: ", bold := true },
                                RElem.run { text := toString d.links.length }]
         :: Block.para 0 false []
         :: ((section_body env
               (add_hyperlink env st [RElem.run { text := "Source: ", bold := true }]
                  d.source_url d.source_url).1 d).2
              ++ (if i < n then
                    [Block.para 0 true
                       [RElem.run { text := String.mk (List.replicate 80 '=') }],
                     Block.para 0 false []]
                  else [])))
    ∧ (d.toc_tree ≠ [] → ∀ links2 : List ContentLink,
         section_body env st { d with links := links2 } = write_nodes env st d.toc_tree 0)
    ∧ (d.toc_tree = [] → d.links ≠ [] →
         section_body env st d = flat_links env st d.links 1)
    ∧ (d.toc_tree = [] → d.links = [] → section_body env st d = (st, []))
    ∧ (∀ (t u : String) (cs : List TocNode) (level : Nat) (st2 : DocState),
         write_node env st2 ⟨t, some u, cs⟩ level =
           ((write_nodes env (add_hyperlink env st2 [] u t).1 cs (level + 1)).1,
            Block.para level false (add_hyperlink env st2 [] u t).2
              :: (write_nodes env (add_hyperlink env st2 [] u t).1 cs (level + 1)).2))
    ∧ (∀ (t : String) (cs : List TocNode) (level : Nat) (st2 : DocState),
         write_node env st2 ⟨t, none, cs⟩ level =
           ((write_nodes env st2 cs (level + 1)).1,
            Block.para level false [RElem.run { text := t, bold := true }]
              :: (write_nodes env st2 cs (level + 1)).2)) := by
  refine ⟨rfl, ?_, ?_, ?_, ?_, ?_⟩
  · intro htoc links2
    obtain ⟨su, pt, lk, tt⟩ := d
    cases tt with
    | nil => exact absurd rfl htoc
    | cons a ts => rfl
  · intro htoc hlk
    obtain ⟨su, pt, lk, tt⟩ := d
    cases tt with
    | cons a ts => simp at htoc
    | nil =>
      cases lk with
      | nil => exact absurd rfl hlk
      | cons x xs => rfl
  · intro htoc hlk
    obtain ⟨su, pt, lk, tt⟩ := d
    simp only at htoc hlk
    subst htoc
    subst hlk
    rfl
  · intro t u cs level st2
    simp [write_node]
  · intro t cs level st2
    simp [write_node]

/-- Claim C3 witness: concrete sections exercising each branch of the
preference rule (non-empty TOC tree with the link list ignored, empty
tree with a non-empty link list, both empty). -/
theorem section_body_preference_witness :
    (([⟨"G", none, [⟨"A", some "https://x/a", []⟩, ⟨"B", some "https://x/b", []⟩]⟩]
        : List TocNode) ≠ [])
    ∧ section_body ⟨false, false⟩ ⟨[]⟩
        { source_url := "https://s", page_title := "T",
          links := [{ text := "L", url := "https://x/a", original_href := "https://x/a" }],
          toc_tree := [⟨"G", none,
            [⟨"A", some "https://x/a", []⟩, ⟨"B", some "https://x/b", []⟩]⟩] }
      = write_nodes ⟨false, false⟩ ⟨[]⟩
          [⟨"G", none, [⟨"A", some "https://x/a", []⟩, ⟨"B", some "https://x/b", []⟩]⟩] 0
    ∧ (([{ text := "L", url := "https://x/a", original_href := "https://x/a" }]
          : List ContentLink) ≠ [])
    ∧ section_body ⟨false, false⟩ ⟨[]⟩
        { source_url := "https://s", page_title := "T",
          links := [{ text := "L", url := "https://x/a", original_href := "https://x/a" }],
          toc_tree := [] }
      = flat_links ⟨false, false⟩ ⟨[]⟩
          [{ text := "L", url := "https://x/a", original_href := "https://x/a" }] 1
    ∧ section_body ⟨false, false⟩ ⟨[]⟩
        { source_url := "https://s", page_title := "T", links := [], toc_tree := [] }
      = (⟨[]⟩, []) := by
  refine ⟨List.cons_ne_nil _ _, ?_, List.cons_ne_nil _ _, ?_, ?_⟩
  · exact (section_body_preference ⟨false, false⟩ ⟨[]⟩ 1 2
      { source_url := "https://s", page_title := "T",
        links := [{ text := "L", url := "https://x/a", original_href := "https://x/a" }],
        toc_tree := [⟨"G", none,
          [⟨"A", some "https://x/a", []⟩, ⟨"B", some "https://x/b", []⟩]⟩] }).2.1
      (List.cons_ne_nil _ _)
      [{ text := "L", url := "https://x/a", original_href := "https://x/a" }]
  · exact (section_body_preference ⟨false, false⟩ ⟨[]⟩ 1 2
      { source_url := "https://s", page_title := "T",
        links := [{ text := "L", url := "https://x/a", original_href := "https://x/a" }],
        toc_tree := [] }).2.2.1 rfl (List.cons_ne_nil _ _)
  · exact (section_body_preference ⟨false, false⟩ ⟨[]⟩ 1 2
      { source_url := "https://s", page_title := "T", links := [],
        toc_tree := [] }).2.2.2.1 rfl rfl
